import Mathlib

/-!
Shallow embedding of the employee-task CRUD service layer
(`app/services/employee_service.py`, `app/services/task_service.py`,
the pagination clamping in `app/routes/employee_routes.py` /
`app/routes/task_routes.py`, and the data model of
`app/models/employee.py`, `app/models/task.py`).

Records are Lean structures; the persistence store is a pair of lists
plus autoincrement counters; timestamps are abstract `Nat` clock values
passed in as `now`; calendar dates are abstract `Nat` codes.  Service
operations return the `(result, error)` pair of the Python code as an
`Except String` value together with the post-state of the store (the
input store unchanged on every failure, mirroring commit/rollback).
-/

namespace App

/-- Employee record (`app/models/employee.py`).  `hire_date` is an
abstract date code; `created_at`/`updated_at` are abstract clock values. -/
structure Employee where
  id : Nat
  first_name : String
  last_name : String
  email : String
  phone : Option String
  department : Option String
  position : Option String
  hire_date : Option Nat
  created_at : Nat
  updated_at : Nat
deriving DecidableEq

/-- Task record (`app/models/task.py`). -/
structure Task where
  id : Nat
  title : String
  description : Option String
  status : String
  priority : String
  employee_id : Option Nat
  deadline : Option Nat
  created_at : Nat
  updated_at : Nat
deriving DecidableEq

/-- The persistence store: both tables plus autoincrement counters. -/
structure Store where
  employees : List Employee
  tasks : List Task
  nextEmployeeId : Nat
  nextTaskId : Nat
deriving DecidableEq

/-- Well-formedness maintained by the database schema: primary keys are
unique and `employees.email` has a UNIQUE constraint. -/
abbrev wfStore (s : Store) : Prop :=
  (s.employees.map (fun e => e.id)).Nodup ∧
  (s.employees.map (fun e => e.email)).Nodup ∧
  (s.tasks.map (fun t => t.id)).Nodup

/-- Payload for `POST /api/employees` after Marshmallow validation
(`EmployeeSchema`): the three required fields are present, the rest are
optional/nullable. -/
structure EmployeeCreateData where
  first_name : String
  last_name : String
  email : String
  phone : Option String := none
  department : Option String := none
  position : Option String := none
  hire_date : Option Nat := none
deriving DecidableEq

/-- Partial payload for `PUT /api/employees/{id}` (`EmployeeUpdateSchema`):
the outer `Option` records whether the key is present in the dict, the
inner one (for `allow_none` fields) whether the value is null. -/
structure EmployeeUpdateData where
  first_name : Option String := none
  last_name : Option String := none
  email : Option String := none
  phone : Option (Option String) := none
  department : Option (Option String) := none
  position : Option (Option String) := none
  hire_date : Option (Option Nat) := none
deriving DecidableEq

/-- `EmployeeService.get_employee_by_id`: `db.session.get(Employee, id)`. -/
def get_employee_by_id (s : Store) (employee_id : Nat) : Option Employee :=
  s.employees.find? (fun e => e.id == employee_id)

/-- `TaskService.get_task_by_id`: `db.session.get(Task, id)`. -/
def get_task_by_id (s : Store) (task_id : Nat) : Option Task :=
  s.tasks.find? (fun t => t.id == task_id)

/-- `EmployeeService.create_employee`: pre-checks email uniqueness with
`Employee.query.filter_by(email=...).first()`, then inserts and commits. -/
def create_employee (s : Store) (now : Nat) (data : EmployeeCreateData) :
    Except String Employee × Store :=
  match s.employees.find? (fun e => e.email == data.email) with
  | some _ => (Except.error "Email already exists", s)
  | none =>
    let employee : Employee :=
      { id := s.nextEmployeeId
        first_name := data.first_name
        last_name := data.last_name
        email := data.email
        phone := data.phone
        department := data.department
        position := data.position
        hire_date := data.hire_date
        created_at := now
        updated_at := now }
    (Except.ok employee,
      { s with employees := s.employees ++ [employee]
               nextEmployeeId := s.nextEmployeeId + 1 })

/-- The `for key, value in data.items(): setattr(employee, key, value)`
loop of `EmployeeService.update_employee`: present keys overwrite, absent
keys keep the existing value. -/
def applyEmployeeUpdate (e : Employee) (data : EmployeeUpdateData) : Employee :=
  { e with
    first_name := data.first_name.getD e.first_name
    last_name := data.last_name.getD e.last_name
    email := data.email.getD e.email
    phone := data.phone.getD e.phone
    department := data.department.getD e.department
    position := data.position.getD e.position
    hire_date := data.hire_date.getD e.hire_date }

/-- `EmployeeService.update_employee`: not-found check, then the
`'email' in data and data['email'] != employee.email` duplicate check,
then the field loop and commit.  The ORM emits an UPDATE (and hence the
`onupdate` refresh of `updated_at`) only when some attribute value
actually changed. -/
def update_employee (s : Store) (now : Nat) (employee_id : Nat)
    (data : EmployeeUpdateData) : Except String Employee × Store :=
  match s.employees.find? (fun e => e.id == employee_id) with
  | none => (Except.error "Employee not found", s)
  | some employee =>
    let dup : Bool :=
      match data.email with
      | some newEmail =>
        newEmail != employee.email &&
          (s.employees.find? (fun e => e.email == newEmail)).isSome
      | none => false
    if dup then
      (Except.error "Email already exists", s)
    else
      let e1 := applyEmployeeUpdate employee data
      let e2 := if e1 = employee then e1 else { e1 with updated_at := now }
      (Except.ok e2,
        { s with employees :=
            s.employees.map (fun x => if x.id == employee_id then e2 else x) })

/-- `EmployeeService.delete_employee`: not-found check, then
`db.session.delete(employee)`; the `cascade='all, delete-orphan'`
relationship of `Employee.tasks` deletes every task whose `employee_id`
references the deleted employee. -/
def delete_employee (s : Store) (employee_id : Nat) :
    Except String Unit × Store :=
  match s.employees.find? (fun e => e.id == employee_id) with
  | none => (Except.error "Employee not found", s)
  | some _ =>
    (Except.ok (),
      { s with employees := s.employees.filter (fun e => e.id != employee_id)
               tasks := s.tasks.filter (fun t => t.employee_id != some employee_id) })

/- ### Generic list lemmas about keyed lookup under `Nodup` keys -/

theorem mem_key_inj {α β : Type} {key : α → β} {l : List α}
    (h : (l.map key).Nodup) {a b : α}
    (ha : a ∈ l) (hb : b ∈ l) (hk : key a = key b) : a = b :=
  List.inj_on_of_nodup_map h ha hb hk

theorem find_key_self {α : Type} {β : Type} [BEq β] [LawfulBEq β]
    {key : α → β} {l : List α} (h : (l.map key).Nodup) {a : α} (ha : a ∈ l) :
    l.find? (fun x => key x == key a) = some a := by
  induction l with
  | nil => cases ha
  | cons c t ih =>
    simp only [List.map_cons, List.nodup_cons] at h
    obtain ⟨hc, ht⟩ := h
    rcases List.mem_cons.mp ha with rfl | hat
    · simp [List.find?_cons]
    · have hne : key c ≠ key a := by
        intro he
        exact hc (he ▸ List.mem_map.mpr ⟨a, hat, rfl⟩)
      have hbeq : (key c == key a) = false := beq_eq_false_iff_ne.mpr hne
      simp [List.find?_cons, hbeq, ih ht hat]

theorem length_filter_key {α : Type} {β : Type} [BEq β] [LawfulBEq β]
    {key : α → β} {l : List α} (h : (l.map key).Nodup) {b : α} (hb : b ∈ l) :
    (l.filter (fun x => key x == key b)).length = 1 := by
  induction l with
  | nil => cases hb
  | cons c t ih =>
    simp only [List.map_cons, List.nodup_cons] at h
    obtain ⟨hc, ht⟩ := h
    rcases List.mem_cons.mp hb with rfl | hbt
    · have hnil : t.filter (fun x => key x == key b) = [] := by
        rw [List.filter_eq_nil_iff]
        intro x hx hbeq
        exact hc (List.mem_map.mpr ⟨x, hx, eq_of_beq hbeq⟩)
      simp [List.filter_cons, hnil]
    · have hne : key c ≠ key b := by
        intro he
        exact hc (he ▸ List.mem_map.mpr ⟨b, hbt, rfl⟩)
      have hbeq : (key c == key b) = false := beq_eq_false_iff_ne.mpr hne
      simp [List.filter_cons, hbeq, ih ht hbt]

/- ### Sample data used by the witness theorems -/

def empAlice : Employee :=
  { id := 1, first_name := "Alice", last_name := "Anderson",
    email := "alice@example.com", phone := none,
    department := some "Engineering", position := some "Developer",
    hire_date := some 100, created_at := 10, updated_at := 10 }

def empBob : Employee :=
  { id := 2, first_name := "Bob", last_name := "Baker",
    email := "bob@example.com", phone := some "555-0100",
    department := some "Sales", position := some "Manager",
    hire_date := none, created_at := 20, updated_at := 20 }

def taskReport : Task :=
  { id := 1, title := "Write report", description := none,
    status := "pending", priority := "medium",
    employee_id := some 1, deadline := none,
    created_at := 15, updated_at := 15 }

def taskAudit : Task :=
  { id := 2, title := "Audit accounts", description := some "Q3 audit",
    status := "in_progress", priority := "high",
    employee_id := some 2, deadline := some 200,
    created_at := 25, updated_at := 25 }

def baseStore : Store :=
  { employees := [empAlice, empBob], tasks := [taskReport, taskAudit],
    nextEmployeeId := 3, nextTaskId := 3 }

/- ### Claim C1 -/

/-- Claim C1: when the create payload's email already belongs to an
employee in the store, `create_employee` fails with the duplicate-email
Conflict condition, the store is unchanged (no employee added), and
exactly one employee with that email exists afterwards. -/
theorem create_employee_duplicate_email (s : Store) (now : Nat)
    (data : EmployeeCreateData) (b : Employee)
    (hwf : wfStore s) (hb : b ∈ s.employees) (he : b.email = data.email) :
    create_employee s now data = (Except.error "Email already exists", s) ∧
    ((create_employee s now data).2.employees.filter
        (fun e => e.email == data.email)).length = 1 := by
  have hfind : s.employees.find? (fun e => e.email == data.email) = some b := by
    have := find_key_self hwf.2.1 hb
    simpa [he] using this
  have hcreate : create_employee s now data = (Except.error "Email already exists", s) := by
    unfold create_employee
    rw [hfind]
  refine ⟨hcreate, ?_⟩
  rw [hcreate]
  have := length_filter_key hwf.2.1 hb
  simpa [he] using this

/-- Witness for claim C1 on a concrete store: Alice's email is resubmitted. -/
theorem create_employee_duplicate_email_witness :
    wfStore baseStore ∧ empAlice ∈ baseStore.employees ∧
    create_employee baseStore 99
        { first_name := "New", last_name := "Person",
          email := "alice@example.com" } =
      (Except.error "Email already exists", baseStore) ∧
    ((create_employee baseStore 99
        { first_name := "New", last_name := "Person",
          email := "alice@example.com" }).2.employees.filter
        (fun e => e.email == "alice@example.com")).length = 1 := by
  have h := create_employee_duplicate_email baseStore 99
    { first_name := "New", last_name := "Person", email := "alice@example.com" }
    empAlice (by decide) (by decide) (by decide)
  exact ⟨by decide, by decide, h.1, h.2⟩

/- ### Claim C4 -/

/-- Claim C4: updating employee A's email to the email of a distinct
employee B fails with the duplicate-email Conflict condition and leaves
the store — hence both A's and B's records, `updated_at` included —
entirely unchanged. -/
theorem update_employee_duplicate_email (s : Store) (now : Nat)
    (A B : Employee) (data : EmployeeUpdateData)
    (hwf : wfStore s) (hA : A ∈ s.employees) (hB : B ∈ s.employees)
    (hne : A.id ≠ B.id) (hemail : data.email = some B.email) :
    update_employee s now A.id data = (Except.error "Email already exists", s) := by
  have hfindA : s.employees.find? (fun e => e.id == A.id) = some A :=
    find_key_self hwf.1 hA
  have hAB : A ≠ B := fun h => hne (by rw [h])
  have hemailne : B.email ≠ A.email := fun h =>
    hAB (mem_key_inj hwf.2.1 hA hB h.symm)
  have hfindB : (s.employees.find? (fun e => e.email == B.email)).isSome = true := by
    rw [find_key_self hwf.2.1 hB]
    rfl
  unfold update_employee
  rw [hfindA]
  simp only [hemail, bne_iff_ne, ne_eq]
  rw [if_pos]
  rw [Bool.and_eq_true]
  exact ⟨by simpa using hemailne, hfindB⟩

/-- Witness for claim C4: Alice's email is updated to Bob's. -/
theorem update_employee_duplicate_email_witness :
    wfStore baseStore ∧ empAlice ∈ baseStore.employees ∧
    empBob ∈ baseStore.employees ∧ empAlice.id ≠ empBob.id ∧
    update_employee baseStore 50 empAlice.id { email := some "bob@example.com" } =
      (Except.error "Email already exists", baseStore) :=
  ⟨by decide, by decide, by decide, by decide,
    update_employee_duplicate_email baseStore 50 empAlice empBob
      { email := some "bob@example.com" }
      (by decide) (by decide) (by decide) (by decide) (by decide)⟩

/- ### Claim C10 -/

/-- Claim C10: resubmitting an employee's own current email in an update
payload never triggers the duplicate-email condition — the uniqueness
re-check is skipped because `data['email'] != employee.email` is false —
so the update succeeds. -/
theorem update_employee_same_email_succeeds (s : Store) (now : Nat)
    (employee_id : Nat) (data : EmployeeUpdateData) (emp : Employee)
    (hfind : get_employee_by_id s employee_id = some emp)
    (hemail : data.email = some emp.email) :
    ∃ e, (update_employee s now employee_id data).1 = Except.ok e := by
  unfold get_employee_by_id at hfind
  unfold update_employee
  rw [hfind]
  simp only [hemail, bne_self_eq_false, Bool.false_and, if_false]
  exact ⟨_, rfl⟩

/-- Witness for claim C10: Alice resubmits her own email together with a
phone change; the update succeeds. -/
theorem update_employee_same_email_succeeds_witness :
    get_employee_by_id baseStore 1 = some empAlice ∧
    ∃ e, (update_employee baseStore 50 1
      { email := some "alice@example.com",
        phone := some (some "555-0199") }).1 = Except.ok e :=
  ⟨by decide,
    update_employee_same_email_succeeds baseStore 50 1
      { email := some "alice@example.com", phone := some (some "555-0199") }
      empAlice (by decide) (by decide)⟩

/- ### Claim C3 -/

/-- Claim C3: deleting an existing employee succeeds, removes the
employee, and cascades to every task whose `employee_id` references it;
afterwards `get_employee_by_id` on the employee id and `get_task_by_id`
on each owned task id return `none`. -/
theorem delete_employee_cascades (s : Store) (e : Employee)
    (hwf : wfStore s) (he : e ∈ s.employees) :
    (delete_employee s e.id).1 = Except.ok () ∧
    get_employee_by_id (delete_employee s e.id).2 e.id = none ∧
    ∀ t ∈ s.tasks, t.employee_id = some e.id →
      t ∉ (delete_employee s e.id).2.tasks ∧
      get_task_by_id (delete_employee s e.id).2 t.id = none := by
  have hfind : s.employees.find? (fun x => x.id == e.id) = some e :=
    find_key_self hwf.1 he
  have hdel : delete_employee s e.id =
      (Except.ok (),
        { s with employees := s.employees.filter (fun x => x.id != e.id)
                 tasks := s.tasks.filter (fun t => t.employee_id != some e.id) }) := by
    unfold delete_employee
    rw [hfind]
  rw [hdel]
  refine ⟨rfl, ?_, ?_⟩
  · unfold get_employee_by_id
    rw [List.find?_eq_none]
    intro x hx
    have hxne := (List.mem_filter.mp hx).2
    simp only [bne_iff_ne, ne_eq] at hxne
    simp [hxne]
  · intro t ht hteid
    constructor
    · intro habs
      have hne := (List.mem_filter.mp habs).2
      rw [hteid] at hne
      simp at hne
    · unfold get_task_by_id
      rw [List.find?_eq_none]
      intro u hu
      obtain ⟨hus, hune⟩ := List.mem_filter.mp hu
      intro hbeq
      have huid : u.id = t.id := by simpa using hbeq
      have hut : u = t :=
        mem_key_inj hwf.2.2 hus ht huid
      rw [hut, hteid] at hune
      simp at hune

/-- Witness for claim C3: deleting Alice removes her and her task. -/
theorem delete_employee_cascades_witness :
    wfStore baseStore ∧ empAlice ∈ baseStore.employees ∧
    ((delete_employee baseStore empAlice.id).1 = Except.ok () ∧
     get_employee_by_id (delete_employee baseStore empAlice.id).2 empAlice.id = none ∧
     ∀ t ∈ baseStore.tasks, t.employee_id = some empAlice.id →
       t ∉ (delete_employee baseStore empAlice.id).2.tasks ∧
       get_task_by_id (delete_employee baseStore empAlice.id).2 t.id = none) :=
  ⟨by decide, by decide,
    delete_employee_cascades baseStore empAlice (by decide) (by decide)⟩

/- ### Task service (`app/services/task_service.py`) -/

/-- Payload for `POST /api/tasks` after Marshmallow validation
(`TaskSchema`): `title` required; `status`/`priority` optional with
schema defaults applied on absence; `employee_id` is a nullable integer
with no range constraint, so 0 is accepted by validation. -/
structure TaskCreateData where
  title : String
  description : Option String := none
  status : Option String := none
  priority : Option String := none
  employee_id : Option Nat := none
  deadline : Option Nat := none
deriving DecidableEq

/-- Partial payload for `PUT /api/tasks/{id}` (`TaskUpdateSchema`). -/
structure TaskUpdateData where
  title : Option String := none
  description : Option (Option String) := none
  status : Option String := none
  priority : Option String := none
  employee_id : Option (Option Nat) := none
  deadline : Option (Option Nat) := none
deriving DecidableEq

/-- `TaskService.create_task`: the referenced-employee check runs under
`if employee_id:` — Python truthiness, so it is skipped when the value is
absent, null, or the integer 0.  Defaults `status='pending'`,
`priority='medium'` are applied via `data.get`. -/
def create_task (s : Store) (now : Nat) (data : TaskCreateData) :
    Except String Task × Store :=
  let task : Task :=
    { id := s.nextTaskId
      title := data.title
      description := data.description
      status := data.status.getD "pending"
      priority := data.priority.getD "medium"
      employee_id := data.employee_id
      deadline := data.deadline
      created_at := now
      updated_at := now }
  let inserted : Except String Task × Store :=
    (Except.ok task,
      { s with tasks := s.tasks ++ [task], nextTaskId := s.nextTaskId + 1 })
  match data.employee_id with
  | some eid =>
    if eid != 0 && (s.employees.find? (fun e => e.id == eid)).isNone then
      (Except.error ("Employee with ID " ++ toString eid ++ " not found"), s)
    else inserted
  | none => inserted

/-- The `setattr` loop of `TaskService.update_task`. -/
def applyTaskUpdate (t : Task) (data : TaskUpdateData) : Task :=
  { t with
    title := data.title.getD t.title
    description := data.description.getD t.description
    status := data.status.getD t.status
    priority := data.priority.getD t.priority
    employee_id := data.employee_id.getD t.employee_id
    deadline := data.deadline.getD t.deadline }

/-- `TaskService.update_task`: not-found check, then the referenced-
employee check guarded by `'employee_id' in data and data['employee_id']`
(truthiness again), then the field loop and commit; `updated_at` is
refreshed by `onupdate` only when some attribute value actually changed. -/
def update_task (s : Store) (now : Nat) (task_id : Nat)
    (data : TaskUpdateData) : Except String Task × Store :=
  match s.tasks.find? (fun t => t.id == task_id) with
  | none => (Except.error "Task not found", s)
  | some task =>
    let refBad : Bool :=
      match data.employee_id with
      | some (some eid) =>
        eid != 0 && (s.employees.find? (fun e => e.id == eid)).isNone
      | some none => false
      | none => false
    if refBad then
      (Except.error "Employee not found", s)
    else
      let t1 := applyTaskUpdate task data
      let t2 := if t1 = task then t1 else { t1 with updated_at := now }
      (Except.ok t2,
        { s with tasks :=
            s.tasks.map (fun x => if x.id == task_id then t2 else x) })

/- ### Claim C2 -/

/-- Claim C2 (counterexample): a task-create payload with the provided,
non-null `employee_id = 0` passes `TaskSchema` validation, yet the
existence check is skipped (`if employee_id:` is false for 0) and the
task is persisted with a dangling reference, although no employee with
id 0 exists — the create does not fail and the store changes. -/
theorem create_task_zero_id_not_checked :
    (create_task { employees := [], tasks := [],
                   nextEmployeeId := 1, nextTaskId := 1 } 7
        { title := "Orphan task", employee_id := some 0 }).1 =
      Except.ok
        { id := 1, title := "Orphan task", description := none,
          status := "pending", priority := "medium",
          employee_id := some 0, deadline := none,
          created_at := 7, updated_at := 7 } ∧
    get_employee_by_id { employees := [], tasks := [],
                         nextEmployeeId := 1, nextTaskId := 1 } 0 = none ∧
    (create_task { employees := [], tasks := [],
                   nextEmployeeId := 1, nextTaskId := 1 } 7
        { title := "Orphan task", employee_id := some 0 }).2.tasks.length = 1 := by
  refine ⟨rfl, rfl, rfl⟩

/-- Claim C2 (amended): when the create payload provides a non-null,
non-zero `employee_id` and no employee with that id exists, `create_task`
fails with the referenced-employee-not-found condition and the store is
unchanged — no task is persisted.  (A provided `employee_id` of 0 skips
the check because of Python truthiness.) -/
theorem create_task_missing_employee (s : Store) (now : Nat)
    (data : TaskCreateData) (eid : Nat)
    (heid : data.employee_id = some eid) (hz : eid ≠ 0)
    (hmiss : get_employee_by_id s eid = none) :
    create_task s now data =
      (Except.error ("Employee with ID " ++ toString eid ++ " not found"), s) := by
  unfold get_employee_by_id at hmiss
  unfold create_task
  rw [heid]
  simp only [bne_iff_ne, ne_eq]
  rw [if_pos]
  rw [Bool.and_eq_true]
  refine ⟨by simpa using hz, ?_⟩
  rw [hmiss]
  rfl

/-- Witness for the amended claim C2: creating a task referencing the
absent employee id 77 fails and persists nothing. -/
theorem create_task_missing_employee_witness :
    get_employee_by_id baseStore 77 = none ∧
    create_task baseStore 30 { title := "Ghost work", employee_id := some 77 } =
      (Except.error "Employee with ID 77 not found", baseStore) :=
  ⟨by decide,
    create_task_missing_employee baseStore 30
      { title := "Ghost work", employee_id := some 77 } 77
      rfl (by decide) (by decide)⟩

/- ### Claim C7 -/

/-- Claim C7: a created task takes status `pending` when the payload
leaves status unspecified and priority `medium` when priority is
unspecified, while specified values are kept verbatim. -/
theorem create_task_defaults (s : Store) (now : Nat)
    (data : TaskCreateData) (t : Task)
    (h : (create_task s now data).1 = Except.ok t) :
    (data.status = none → t.status = "pending") ∧
    (data.priority = none → t.priority = "medium") ∧
    (∀ st, data.status = some st → t.status = st) ∧
    (∀ pr, data.priority = some pr → t.priority = pr) := by
  have ht : t.status = data.status.getD "pending" ∧
      t.priority = data.priority.getD "medium" := by
    unfold create_task at h
    rcases hcase : data.employee_id with _ | eid
    · rw [hcase] at h
      simp only at h
      cases h
      exact ⟨rfl, rfl⟩
    · rw [hcase] at h
      simp only at h
      split at h
      · cases h
      · cases h
        exact ⟨rfl, rfl⟩
  refine ⟨?_, ?_, ?_, ?_⟩
  · intro hs; rw [ht.1, hs]; rfl
  · intro hp; rw [ht.2, hp]; rfl
  · intro st hs; rw [ht.1, hs]; rfl
  · intro pr hp; rw [ht.2, hp]; rfl

/-- Witness for claim C7: an unspecified status defaults to `pending`
and an unspecified priority to `medium`. -/
theorem create_task_defaults_witness :
    (create_task baseStore 40 { title := "Plain task" }).1 =
      Except.ok
        { id := 3, title := "Plain task", description := none,
          status := "pending", priority := "medium",
          employee_id := none, deadline := none,
          created_at := 40, updated_at := 40 } ∧
    ({ id := 3, title := "Plain task", description := none,
       status := "pending", priority := "medium",
       employee_id := none, deadline := none,
       created_at := 40, updated_at := 40 } : Task).status = "pending" ∧
    ({ id := 3, title := "Plain task", description := none,
       status := "pending", priority := "medium",
       employee_id := none, deadline := none,
       created_at := 40, updated_at := 40 } : Task).priority = "medium" :=
  ⟨rfl,
    ((create_task_defaults baseStore 40 { title := "Plain task" } _ rfl).1 rfl),
    ((create_task_defaults baseStore 40 { title := "Plain task" } _ rfl).2.1 rfl)⟩

/- ### Claim C6 -/

/-- Claim C6 (counterexample): `updated_at` is absent from the partial
payload `{first_name: "Alicia"}`, yet the employee update changes it
from 10 to the commit time 55 (the model's `onupdate` refresh), so not
every field absent from the payload retains its prior value. -/
theorem update_absent_updated_at_changes :
    get_employee_by_id baseStore 1 = some empAlice ∧
    empAlice.updated_at = 10 ∧
    (update_employee baseStore 55 1
        { first_name := some "Alicia" }).1.toOption.map
      (fun e => e.updated_at) = some 55 := by
  refine ⟨by decide, rfl, rfl⟩

/-- Claim C6 (amended): for both the employee and the task update, a
successful update sets exactly the fields whose keys are present in the
payload to the payload values; every other field keeps its prior value,
except `updated_at`, which is refreshed to the commit time whenever the
applied payload actually changes the record (and kept otherwise);
`id` and `created_at` are always preserved. -/
theorem update_partial_fields :
    (∀ (s : Store) (now employee_id : Nat) (data : EmployeeUpdateData)
        (emp e' : Employee),
      get_employee_by_id s employee_id = some emp →
      (update_employee s now employee_id data).1 = Except.ok e' →
      e'.id = emp.id ∧
      e'.first_name = data.first_name.getD emp.first_name ∧
      e'.last_name = data.last_name.getD emp.last_name ∧
      e'.email = data.email.getD emp.email ∧
      e'.phone = data.phone.getD emp.phone ∧
      e'.department = data.department.getD emp.department ∧
      e'.position = data.position.getD emp.position ∧
      e'.hire_date = data.hire_date.getD emp.hire_date ∧
      e'.created_at = emp.created_at ∧
      e'.updated_at =
        (if applyEmployeeUpdate emp data = emp then emp.updated_at else now)) ∧
    (∀ (s : Store) (now task_id : Nat) (data : TaskUpdateData)
        (tk t' : Task),
      get_task_by_id s task_id = some tk →
      (update_task s now task_id data).1 = Except.ok t' →
      t'.id = tk.id ∧
      t'.title = data.title.getD tk.title ∧
      t'.description = data.description.getD tk.description ∧
      t'.status = data.status.getD tk.status ∧
      t'.priority = data.priority.getD tk.priority ∧
      t'.employee_id = data.employee_id.getD tk.employee_id ∧
      t'.deadline = data.deadline.getD tk.deadline ∧
      t'.created_at = tk.created_at ∧
      t'.updated_at =
        (if applyTaskUpdate tk data = tk then tk.updated_at else now)) := by
  constructor
  · intro s now employee_id data emp e' hfind hok
    unfold get_employee_by_id at hfind
    unfold update_employee at hok
    rw [hfind] at hok
    simp only at hok
    split at hok
    · cases hok
    · simp only [Except.ok.injEq] at hok
      subst hok
      split
      · exact ⟨rfl, rfl, rfl, rfl, rfl, rfl, rfl, rfl, rfl, rfl⟩
      · exact ⟨rfl, rfl, rfl, rfl, rfl, rfl, rfl, rfl, rfl, rfl⟩
  · intro s now task_id data tk t' hfind hok
    unfold get_task_by_id at hfind
    unfold update_task at hok
    rw [hfind] at hok
    simp only at hok
    split at hok
    · cases hok
    · simp only [Except.ok.injEq] at hok
      subst hok
      split
      · exact ⟨rfl, rfl, rfl, rfl, rfl, rfl, rfl, rfl, rfl⟩
      · exact ⟨rfl, rfl, rfl, rfl, rfl, rfl, rfl, rfl, rfl⟩

/-- Witness for the amended claim C6: a first-name-only employee update
and a status-only task update each modify just the named field, keep the
other payload fields, and refresh `updated_at`. -/
theorem update_partial_fields_witness :
    (get_employee_by_id baseStore 1 = some empAlice ∧
     ∀ e', (update_employee baseStore 55 1
         { first_name := some "Alicia" }).1 = Except.ok e' →
       e'.first_name = "Alicia" ∧ e'.last_name = empAlice.last_name ∧
       e'.email = empAlice.email ∧ e'.created_at = empAlice.created_at) ∧
    (get_task_by_id baseStore 2 = some taskAudit ∧
     ∀ t', (update_task baseStore 60 2
         { status := some "completed" }).1 = Except.ok t' →
       t'.status = "completed" ∧ t'.priority = taskAudit.priority ∧
       t'.title = taskAudit.title ∧ t'.created_at = taskAudit.created_at) := by
  constructor
  · refine ⟨by decide, ?_⟩
    intro e' hok
    have h := update_partial_fields.1 baseStore 55 1
      { first_name := some "Alicia" } empAlice e' (by decide) hok
    exact ⟨h.2.1, h.2.2.1, h.2.2.2.1, h.2.2.2.2.2.2.2.2.1⟩
  · refine ⟨by decide, ?_⟩
    intro t' hok
    have h := update_partial_fields.2 baseStore 60 2
      { status := some "completed" } taskAudit t' (by decide) hok
    exact ⟨h.2.2.2.1, h.2.2.2.2.1, h.2.1, h.2.2.2.2.2.2.2.1⟩

/- ### Route-level pagination validation (claims C5) -/

/-- The pagination-parameter validation block of `get_employees` in
`app/routes/employee_routes.py`: `page < 1` resets page to 1; a
`per_page` outside `[1, 100]` resets `per_page` to the default 10. -/
def employeesRoutePagination (page per_page : Int) : Int × Int :=
  let page := if page < 1 then 1 else page
  let per_page := if per_page < 1 ∨ per_page > 100 then 10 else per_page
  (page, per_page)

/-- The identical validation block of `get_tasks` in
`app/routes/task_routes.py`. -/
def tasksRoutePagination (page per_page : Int) : Int × Int :=
  let page := if page < 1 then 1 else page
  let per_page := if per_page < 1 ∨ per_page > 100 then 10 else per_page
  (page, per_page)

/-- Claim C5 (counterexample): `per_page = 200` exceeds the upper bound
100, and both routes replace it by the default 10, not by the violated
bound 100 — the inputs are not clamped to the bound as claimed. -/
theorem route_pagination_not_clamped_to_bound :
    employeesRoutePagination 1 200 = (1, 10) ∧
    tasksRoutePagination 1 200 = (1, 10) ∧
    (10 : Int) ≠ 100 := by
  refine ⟨rfl, rfl, by decide⟩

/-- Claim C5 (amended): in both list routes an in-range input is passed
through unchanged; a page below 1 is replaced by 1; a `per_page` outside
`[1, 100]` is replaced by the default 10 (never rejected). -/
theorem route_pagination_normalization (page per_page : Int) :
    (1 ≤ page →
      (employeesRoutePagination page per_page).1 = page ∧
      (tasksRoutePagination page per_page).1 = page) ∧
    (page < 1 →
      (employeesRoutePagination page per_page).1 = 1 ∧
      (tasksRoutePagination page per_page).1 = 1) ∧
    (1 ≤ per_page ∧ per_page ≤ 100 →
      (employeesRoutePagination page per_page).2 = per_page ∧
      (tasksRoutePagination page per_page).2 = per_page) ∧
    (per_page < 1 ∨ 100 < per_page →
      (employeesRoutePagination page per_page).2 = 10 ∧
      (tasksRoutePagination page per_page).2 = 10) := by
  unfold employeesRoutePagination tasksRoutePagination
  refine ⟨?_, ?_, ?_, ?_⟩
  · intro h
    rw [if_neg (show ¬page < 1 by omega)]
    exact ⟨rfl, rfl⟩
  · intro h
    rw [if_pos h]
    exact ⟨rfl, rfl⟩
  · intro h
    rw [if_neg (show ¬(per_page < 1 ∨ per_page > 100) by omega)]
    exact ⟨rfl, rfl⟩
  · intro h
    rw [if_pos (show per_page < 1 ∨ per_page > 100 by omega)]
    exact ⟨rfl, rfl⟩

/-- Witness for the amended claim C5 at concrete in- and out-of-range
inputs. -/
theorem route_pagination_normalization_witness :
    ((employeesRoutePagination 2 50).1 = 2 ∧ (tasksRoutePagination 2 50).1 = 2) ∧
    ((employeesRoutePagination (-3) 50).1 = 1 ∧ (tasksRoutePagination (-3) 50).1 = 1) ∧
    ((employeesRoutePagination 2 50).2 = 50 ∧ (tasksRoutePagination 2 50).2 = 50) ∧
    ((employeesRoutePagination 2 0).2 = 10 ∧ (tasksRoutePagination 2 0).2 = 10) :=
  ⟨(route_pagination_normalization 2 50).1 (by decide),
   (route_pagination_normalization (-3) 50).2.1 (by decide),
   (route_pagination_normalization 2 50).2.2.1 (by decide),
   (route_pagination_normalization 2 0).2.2.2 (Or.inl (by decide))⟩

/- ### List endpoints: filtering, ordering, pagination -/

/-- ASCII lower-casing of one character (code points 65-90 map to 97-122);
SQLite's LIKE/ILIKE is case-insensitive for ASCII letters only. -/
def asciiLower (c : Char) : Char :=
  if 65 ≤ c.toNat ∧ c.toNat ≤ 90 then Char.ofNat (c.toNat + 32) else c

def lowerChars (l : List Char) : List Char := l.map asciiLower

/-- Literal test: does the haystack start with the needle? -/
def charsStartWith : List Char → List Char → Bool
  | _, [] => true
  | [], _ :: _ => false
  | a :: as, b :: bs => a == b && charsStartWith as bs

/-- Literal test: does the haystack contain the needle as a contiguous
substring? -/
def charsContain : List Char → List Char → Bool
  | [], needle => needle.isEmpty
  | a :: rest, needle => charsStartWith (a :: rest) needle || charsContain rest needle

/-- Does `f` accept some suffix of the haystack (the haystack itself
included)?  Used to interpret a `%` wildcard, which consumes zero or
more characters. -/
def anySuffix (f : List Char → Bool) : List Char → Bool
  | [] => f []
  | h :: hs => f (h :: hs) || anySuffix f hs

/-- SQL LIKE matching, by structural recursion on the pattern: `%`
matches any sequence of zero or more characters, `_` matches exactly one
character, any other pattern character matches itself.  Case folding is
done by the caller (both sides lowered), matching SQLite's
ASCII-case-insensitive LIKE. -/
def likeMatchFn : List Char → List Char → Bool
  | [] => fun hay => hay.isEmpty
  | p :: ps =>
    if p == '%' then
      anySuffix (likeMatchFn ps)
    else
      fun hay =>
        match hay with
        | [] => false
        | h :: hs => (p == '_' || p == h) && likeMatchFn ps hs

def likeMatch (pat hay : List Char) : Bool := likeMatchFn pat hay

/-- True when the string contains neither LIKE wildcard (`%`, `_`). -/
def noWildcards (l : List Char) : Bool :=
  l.all (fun c => c != '%' && c != '_')

/-- `column.ilike(f'%{pat}%')` on a nullable column: a NULL column never
matches; otherwise the user-supplied `pat` is interpolated unescaped
between two `%`, so any `%` or `_` inside `pat` stays a live LIKE
wildcard, and matching is ASCII-case-insensitive. -/
def ilikeContains (col : Option String) (pat : String) : Bool :=
  match col with
  | none => false
  | some c => likeMatch ('%' :: lowerChars pat.data ++ ['%']) (lowerChars c.data)

/-- The filter chain of `EmployeeService.get_all_employees`: each filter
is applied only when the argument is truthy (present and non-empty). -/
def employeesQuery (s : Store) (department position : Option String) :
    List Employee :=
  let q0 := s.employees
  let q1 := match department with
    | some d => if d != "" then q0.filter (fun e => ilikeContains e.department d) else q0
    | none => q0
  let q2 := match position with
    | some p => if p != "" then q1.filter (fun e => ilikeContains e.position p) else q1
    | none => q1
  q2

/-- The filter chain of `TaskService.get_all_tasks`: exact-match filters
on status, priority and employee id, each applied only when the argument
is truthy (non-empty string / non-zero integer). -/
def tasksQuery (s : Store) (status priority : Option String)
    (employee_id : Option Nat) : List Task :=
  let q0 := s.tasks
  let q1 := match status with
    | some st => if st != "" then q0.filter (fun t => t.status == st) else q0
    | none => q0
  let q2 := match priority with
    | some pr => if pr != "" then q1.filter (fun t => t.priority == pr) else q1
    | none => q1
  let q3 := match employee_id with
    | some eid => if eid != 0 then q2.filter (fun t => t.employee_id == some eid) else q2
    | none => q2
  q3

/-- Pagination metadata returned by Flask-SQLAlchemy's `paginate`. -/
structure PaginationInfo where
  page : Nat
  per_page : Nat
  total : Nat
  pages : Nat
  has_next : Bool
  has_prev : Bool
deriving DecidableEq

/-- Insertion step of the `ORDER BY created_at DESC` ordering. -/
def insertDescBy {α : Type} (key : α → Nat) (a : α) : List α → List α
  | [] => [a]
  | b :: bs => if key b ≤ key a then a :: b :: bs else b :: insertDescBy key a bs

/-- `ORDER BY key DESC` as an insertion sort. -/
def sortDescBy {α : Type} (key : α → Nat) : List α → List α
  | [] => []
  | a :: as => insertDescBy key a (sortDescBy key as)

/-- `query.paginate(page, per_page, error_out=False)`: the page slice is
`LIMIT per_page OFFSET (page-1)*per_page`, plus the metadata object. -/
def paginate {α : Type} (l : List α) (page per_page : Nat) :
    List α × PaginationInfo :=
  ((l.drop ((page - 1) * per_page)).take per_page,
    { page := page, per_page := per_page, total := l.length,
      pages := (l.length + per_page - 1) / per_page,
      has_next := decide (page < (l.length + per_page - 1) / per_page),
      has_prev := decide (1 < page) })

/-- `EmployeeService.get_all_employees`. -/
def get_all_employees (s : Store) (page per_page : Nat)
    (department position : Option String) : List Employee × PaginationInfo :=
  paginate (sortDescBy (fun e => e.created_at) (employeesQuery s department position))
    page per_page

/-- `TaskService.get_all_tasks`. -/
def get_all_tasks (s : Store) (page per_page : Nat)
    (status priority : Option String) (employee_id : Option Nat) :
    List Task × PaginationInfo :=
  paginate (sortDescBy (fun t => t.created_at) (tasksQuery s status priority employee_id))
    page per_page

/- ### Membership lemmas for sorting, pagination and the filter chains -/

theorem mem_insertDescBy {α : Type} (key : α → Nat) (a x : α) (l : List α) :
    x ∈ insertDescBy key a l ↔ x = a ∨ x ∈ l := by
  induction l with
  | nil => simp [insertDescBy]
  | cons b t ih =>
    simp only [insertDescBy]
    split
    · simp [List.mem_cons]
    · simp only [List.mem_cons, ih]
      tauto

theorem mem_sortDescBy {α : Type} (key : α → Nat) (x : α) (l : List α) :
    x ∈ sortDescBy key l ↔ x ∈ l := by
  induction l with
  | nil => simp [sortDescBy]
  | cons b t ih => simp [sortDescBy, mem_insertDescBy, ih]

theorem mem_of_mem_paginate {α : Type} {l : List α} {x : α} {page per_page : Nat}
    (h : x ∈ (paginate l page per_page).1) : x ∈ l :=
  List.mem_of_mem_drop (List.mem_of_mem_take h)

theorem exists_page_of_mem {α : Type} {l : List α} {x : α} {per_page : Nat}
    (hpp : 1 ≤ per_page) (hx : x ∈ l) :
    ∃ page, 1 ≤ page ∧ x ∈ (paginate l page per_page).1 := by
  obtain ⟨i, hi, hgl⟩ := List.getElem_of_mem hx
  refine ⟨i / per_page + 1, Nat.le_add_left 1 _, ?_⟩
  unfold paginate
  simp only [Nat.add_sub_cancel]
  have hdm : i / per_page * per_page + i % per_page = i := Nat.div_add_mod' i per_page
  have hmod : i % per_page < per_page := Nat.mod_lt _ (by omega)
  have hlen : i % per_page < (l.drop (i / per_page * per_page)).length := by
    rw [List.length_drop]
    omega
  have hlen2 : i % per_page < ((l.drop (i / per_page * per_page)).take per_page).length := by
    rw [List.length_take, List.length_drop]
    omega
  have heq : ((l.drop (i / per_page * per_page)).take per_page).get ⟨i % per_page, hlen2⟩ = x := by
    rw [List.get_eq_getElem, List.getElem_take, List.getElem_drop]
    simp only [hdm]
    exact hgl
  exact heq ▸ List.get_mem _ _ _

theorem mem_employeesQuery_dept {s : Store} {f : String} (hf : f ≠ "")
    {e : Employee} :
    e ∈ employeesQuery s (some f) none ↔
      e ∈ s.employees ∧ ilikeContains e.department f = true := by
  unfold employeesQuery
  have hb : (f != "") = true := bne_iff_ne.mpr hf
  simp [hb, List.mem_filter]

theorem mem_employeesQuery_pos {s : Store} {f : String} (hf : f ≠ "")
    {e : Employee} :
    e ∈ employeesQuery s none (some f) ↔
      e ∈ s.employees ∧ ilikeContains e.position f = true := by
  unfold employeesQuery
  have hb : (f != "") = true := bne_iff_ne.mpr hf
  simp [hb, List.mem_filter]

theorem mem_tasksQuery_status {s : Store} {st : String} (hst : st ≠ "")
    {t : Task} :
    t ∈ tasksQuery s (some st) none none ↔
      t ∈ s.tasks ∧ t.status = st := by
  unfold tasksQuery
  have hb : (st != "") = true := bne_iff_ne.mpr hst
  simp [hb, List.mem_filter]

theorem mem_tasksQuery_priority {s : Store} {pr : String} (hpr : pr ≠ "")
    {t : Task} :
    t ∈ tasksQuery s none (some pr) none ↔
      t ∈ s.tasks ∧ t.priority = pr := by
  unfold tasksQuery
  have hb : (pr != "") = true := bne_iff_ne.mpr hpr
  simp [hb, List.mem_filter]

theorem mem_tasksQuery_eid {s : Store} {eid : Nat} (heid : eid ≠ 0)
    {t : Task} :
    t ∈ tasksQuery s none none (some eid) ↔
      t ∈ s.tasks ∧ t.employee_id = some eid := by
  unfold tasksQuery
  have hb : (eid != 0) = true := bne_iff_ne.mpr heid
  simp [hb, List.mem_filter]

/- ### LIKE-matching lemmas -/

theorem toNat_ofNat_valid {n : Nat} (h : n < 55296) : (Char.ofNat n).toNat = n := by
  simp [Char.ofNat, Nat.isValidChar, h, Char.ofNatAux, Char.toNat, UInt32.toNat]

theorem asciiLower_keeps_nonwild {c : Char}
    (h : (c != '%' && c != '_') = true) :
    (asciiLower c != '%' && asciiLower c != '_') = true := by
  unfold asciiLower
  split
  · rename_i hc
    obtain ⟨h1, h2⟩ := hc
    have hv : c.toNat + 32 < 55296 := by omega
    have ht : (Char.ofNat (c.toNat + 32)).toNat = c.toNat + 32 := toNat_ofNat_valid hv
    rw [Bool.and_eq_true, bne_iff_ne, bne_iff_ne]
    have h37 : ('%' : Char).toNat = 37 := by decide
    have h95 : ('_' : Char).toNat = 95 := by decide
    constructor
    · intro he
      rw [he, h37] at ht
      omega
    · intro he
      rw [he, h95] at ht
      omega
  · exact h

theorem noWildcards_lowerChars {l : List Char} (h : noWildcards l = true) :
    noWildcards (lowerChars l) = true := by
  unfold noWildcards lowerChars
  rw [List.all_map]
  unfold noWildcards at h
  rw [List.all_eq_true] at h ⊢
  intro c hc
  exact asciiLower_keeps_nonwild (h c hc)

theorem charsStartWith_nil_needle (s : List Char) : charsStartWith s [] = true := by
  cases s <;> rfl

theorem anySuffix_nilFn (s : List Char) : anySuffix (likeMatchFn []) s = true := by
  induction s with
  | nil => rfl
  | cons h hs ih =>
    simp only [anySuffix, likeMatchFn] at ih ⊢
    simp [ih]

theorem beq_comm_char (a b : Char) : (a == b) = (b == a) := by
  by_cases h : a = b
  · simp [h]
  · simp [h, Ne.symm h]

theorem likeMatchFn_append_percent {needle : List Char}
    (hw : noWildcards needle = true) :
    ∀ s, likeMatchFn (needle ++ ['%']) s = charsStartWith s needle := by
  induction needle with
  | nil =>
    intro s
    rw [charsStartWith_nil_needle]
    show anySuffix (likeMatchFn []) s = true
    exact anySuffix_nilFn s
  | cons n ns ih =>
    simp only [noWildcards, List.all_cons, Bool.and_eq_true] at hw
    obtain ⟨⟨hn1, hn2⟩, hns⟩ := hw
    have hn1' : (n == '%') = false := by
      rw [bne_iff_ne] at hn1
      exact beq_eq_false_iff_ne.mpr hn1
    have hn2' : (n == '_') = false := by
      rw [bne_iff_ne] at hn2
      exact beq_eq_false_iff_ne.mpr hn2
    have ihs := ih hns
    intro s
    cases s with
    | nil =>
      simp [likeMatchFn, hn1', charsStartWith]
    | cons h hs =>
      show likeMatchFn (n :: (ns ++ ['%'])) (h :: hs) =
        charsStartWith (h :: hs) (n :: ns)
      simp only [likeMatchFn, hn1', Bool.false_eq_true, if_false, hn2',
        Bool.false_or, charsStartWith]
      rw [ihs hs, beq_comm_char n h]

theorem likeMatchFn_sandwich {needle : List Char}
    (hw : noWildcards needle = true) :
    ∀ hay, likeMatchFn ('%' :: needle ++ ['%']) hay = charsContain hay needle := by
  have hLP := likeMatchFn_append_percent hw
  intro hay
  show anySuffix (likeMatchFn (needle ++ ['%'])) hay = charsContain hay needle
  induction hay with
  | nil =>
    show likeMatchFn (needle ++ ['%']) [] = charsContain [] needle
    rw [hLP []]
    cases needle <;> rfl
  | cons h hs ih =>
    show (likeMatchFn (needle ++ ['%']) (h :: hs) ||
        anySuffix (likeMatchFn (needle ++ ['%'])) hs) =
      charsContain (h :: hs) needle
    rw [hLP (h :: hs), ih]
    rfl

theorem ilikeContains_substring_of_noWildcards {f : String}
    (hw : noWildcards f.data = true) (c : String) :
    ilikeContains (some c) f =
      charsContain (lowerChars c.data) (lowerChars f.data) := by
  unfold ilikeContains likeMatch
  exact likeMatchFn_sandwich (noWildcards_lowerChars hw) _

/- ### Claim C8 -/

def empCarol : Employee :=
  { id := 7, first_name := "Carol", last_name := "Chen",
    email := "carol@example.com", phone := none,
    department := some "abc", position := none, hire_date := none,
    created_at := 30, updated_at := 30 }

def storeWildcard : Store :=
  { employees := [empCarol], tasks := [], nextEmployeeId := 8, nextTaskId := 1 }

/-- Claim C8 (counterexample): the filter "a_c" is interpolated unescaped
into the LIKE pattern `%a_c%`, where `_` matches any single character, so
the employee list returns Carol, whose department "abc" does not contain
"a_c" as a case-insensitive substring — the filter is not a literal
substring test. -/
theorem employee_filter_wildcard_not_substring :
    empCarol ∈ (get_all_employees storeWildcard 1 10 (some "a_c") none).1 ∧
    empCarol.department = some "abc" ∧
    charsContain (lowerChars ("abc".data)) (lowerChars ("a_c".data)) = false := by
  refine ⟨by decide, rfl, by decide⟩

/-- Claim C8 (amended): the department and position filters perform SQL
LIKE matching of the pattern `%f%`, in which unescaped `%` and `_` in the
user-supplied filter act as wildcards: every returned employee
LIKE-matches the filter and every LIKE-matching employee appears on some
page; for a filter containing neither `%` nor `_` this matching is
exactly the ASCII-case-insensitive substring test, so in particular
department "Engin" matches "Engineering". -/
theorem employee_list_filters_like (s : Store) (page per_page : Nat)
    (f : String) (hf : f ≠ "") (hpp : 1 ≤ per_page) :
    (∀ e, e ∈ (get_all_employees s page per_page (some f) none).1 →
        ilikeContains e.department f = true) ∧
    (∀ e, e ∈ s.employees → ilikeContains e.department f = true →
        ∃ p, 1 ≤ p ∧ e ∈ (get_all_employees s p per_page (some f) none).1) ∧
    (∀ e, e ∈ (get_all_employees s page per_page none (some f)).1 →
        ilikeContains e.position f = true) ∧
    (∀ e, e ∈ s.employees → ilikeContains e.position f = true →
        ∃ p, 1 ≤ p ∧ e ∈ (get_all_employees s p per_page none (some f)).1) ∧
    (noWildcards f.data = true → ∀ c : String,
        ilikeContains (some c) f =
          charsContain (lowerChars c.data) (lowerChars f.data)) := by
  refine ⟨?_, ?_, ?_, ?_, ?_⟩
  · intro e he
    unfold get_all_employees at he
    have h1 := mem_of_mem_paginate he
    rw [mem_sortDescBy] at h1
    exact ((mem_employeesQuery_dept hf).mp h1).2
  · intro e he hm
    have h1 : e ∈ employeesQuery s (some f) none :=
      (mem_employeesQuery_dept hf).mpr ⟨he, hm⟩
    have h2 := (mem_sortDescBy (fun e : Employee => e.created_at) e _).mpr h1
    obtain ⟨p, hp, hmem⟩ := exists_page_of_mem hpp h2
    exact ⟨p, hp, by unfold get_all_employees; exact hmem⟩
  · intro e he
    unfold get_all_employees at he
    have h1 := mem_of_mem_paginate he
    rw [mem_sortDescBy] at h1
    exact ((mem_employeesQuery_pos hf).mp h1).2
  · intro e he hm
    have h1 : e ∈ employeesQuery s none (some f) :=
      (mem_employeesQuery_pos hf).mpr ⟨he, hm⟩
    have h2 := (mem_sortDescBy (fun e : Employee => e.created_at) e _).mpr h1
    obtain ⟨p, hp, hmem⟩ := exists_page_of_mem hpp h2
    exact ⟨p, hp, by unfold get_all_employees; exact hmem⟩
  · intro hw c
    exact ilikeContains_substring_of_noWildcards hw c

/-- Witness for the amended claim C8: the wildcard-free filter "Engin"
matches Alice, whose department is "Engineering", every returned
employee LIKE-matches the filter, and on this filter LIKE matching
coincides with the case-insensitive substring test. -/
theorem employee_list_filters_like_witness :
    ilikeContains (some "Engineering") "Engin" = true ∧
    (∃ p, 1 ≤ p ∧ empAlice ∈ (get_all_employees baseStore p 10 (some "Engin") none).1) ∧
    (∀ e, e ∈ (get_all_employees baseStore 1 10 (some "Engin") none).1 →
        ilikeContains e.department "Engin" = true) ∧
    ilikeContains (some "Engineering") "Engin" =
      charsContain (lowerChars ("Engineering".data)) (lowerChars ("Engin".data)) := by
  have h := employee_list_filters_like baseStore 1 10 "Engin" (by decide) (by decide)
  exact ⟨by decide, h.2.1 empAlice (by decide) (by decide), h.1,
    h.2.2.2.2 (by decide) "Engineering"⟩

/- ### Claim C9 -/

/-- Claim C9: with a truthy status filter `st`, the task list returns
only tasks whose status is exactly `st` (string equality — not substring,
not case-insensitive), and the priority and employee-id filters have the
same exact-match semantics; matching tasks are also never lost (each
appears on some page). -/
theorem task_list_filters_exact (s : Store) (page per_page : Nat)
    (st pr : String) (eid : Nat)
    (hst : st ≠ "") (hpr : pr ≠ "") (heid : eid ≠ 0) (hpp : 1 ≤ per_page) :
    (∀ t, t ∈ (get_all_tasks s page per_page (some st) none none).1 →
        t.status = st) ∧
    (∀ t, t ∈ s.tasks → t.status = st →
        ∃ p, 1 ≤ p ∧ t ∈ (get_all_tasks s p per_page (some st) none none).1) ∧
    (∀ t, t ∈ (get_all_tasks s page per_page none (some pr) none).1 →
        t.priority = pr) ∧
    (∀ t, t ∈ s.tasks → t.priority = pr →
        ∃ p, 1 ≤ p ∧ t ∈ (get_all_tasks s p per_page none (some pr) none).1) ∧
    (∀ t, t ∈ (get_all_tasks s page per_page none none (some eid)).1 →
        t.employee_id = some eid) ∧
    (∀ t, t ∈ s.tasks → t.employee_id = some eid →
        ∃ p, 1 ≤ p ∧ t ∈ (get_all_tasks s p per_page none none (some eid)).1) := by
  refine ⟨?_, ?_, ?_, ?_, ?_, ?_⟩
  · intro t ht
    unfold get_all_tasks at ht
    have h1 := mem_of_mem_paginate ht
    rw [mem_sortDescBy] at h1
    exact ((mem_tasksQuery_status hst).mp h1).2
  · intro t ht hm
    have h1 : t ∈ tasksQuery s (some st) none none :=
      (mem_tasksQuery_status hst).mpr ⟨ht, hm⟩
    have h2 := (mem_sortDescBy (fun t : Task => t.created_at) t _).mpr h1
    obtain ⟨p, hp, hmem⟩ := exists_page_of_mem hpp h2
    exact ⟨p, hp, by unfold get_all_tasks; exact hmem⟩
  · intro t ht
    unfold get_all_tasks at ht
    have h1 := mem_of_mem_paginate ht
    rw [mem_sortDescBy] at h1
    exact ((mem_tasksQuery_priority hpr).mp h1).2
  · intro t ht hm
    have h1 : t ∈ tasksQuery s none (some pr) none :=
      (mem_tasksQuery_priority hpr).mpr ⟨ht, hm⟩
    have h2 := (mem_sortDescBy (fun t : Task => t.created_at) t _).mpr h1
    obtain ⟨p, hp, hmem⟩ := exists_page_of_mem hpp h2
    exact ⟨p, hp, by unfold get_all_tasks; exact hmem⟩
  · intro t ht
    unfold get_all_tasks at ht
    have h1 := mem_of_mem_paginate ht
    rw [mem_sortDescBy] at h1
    exact ((mem_tasksQuery_eid heid).mp h1).2
  · intro t ht hm
    have h1 : t ∈ tasksQuery s none none (some eid) :=
      (mem_tasksQuery_eid heid).mpr ⟨ht, hm⟩
    have h2 := (mem_sortDescBy (fun t : Task => t.created_at) t _).mpr h1
    obtain ⟨p, hp, hmem⟩ := exists_page_of_mem hpp h2
    exact ⟨p, hp, by unfold get_all_tasks; exact hmem⟩

/-- Witness for claim C9: filtering the base store by status "pending",
priority "high" or employee id 2 returns only exactly-matching tasks,
and each matching task appears on some page. -/
theorem task_list_filters_exact_witness :
    (∀ t, t ∈ (get_all_tasks baseStore 1 10 (some "pending") none none).1 →
        t.status = "pending") ∧
    (∃ p, 1 ≤ p ∧ taskReport ∈ (get_all_tasks baseStore p 10 (some "pending") none none).1) ∧
    (∀ t, t ∈ (get_all_tasks baseStore 1 10 none (some "high") none).1 →
        t.priority = "high") ∧
    (∃ p, 1 ≤ p ∧ taskAudit ∈ (get_all_tasks baseStore p 10 none (some "high") none).1) ∧
    (∀ t, t ∈ (get_all_tasks baseStore 1 10 none none (some 2)).1 →
        t.employee_id = some 2) ∧
    (∃ p, 1 ≤ p ∧ taskAudit ∈ (get_all_tasks baseStore p 10 none none (some 2)).1) := by
  have h := task_list_filters_exact baseStore 1 10 "pending" "high" 2
    (by decide) (by decide) (by decide) (by decide)
  exact ⟨h.1, h.2.1 taskReport (by decide) (by decide), h.2.2.1,
    h.2.2.2.1 taskAudit (by decide) (by decide), h.2.2.2.2.1,
    h.2.2.2.2.2 taskAudit (by decide) (by decide)⟩

end App
